import Mathlib

/-!
Shallow embedding of the Solidity analyzer of `src/src/utils/solidityParser.ts`
(`regexFallbackParser`, `buildResult`, `parseSolidity`), of the mapping-rule
engine `applyMappingRules` (the file whose name is unknown, `src/unnamed/part_000`)
and of the mapping count of `estimateCosts` (`src/src/utils/costCalculator.ts`).

JavaScript regular expressions are embedded as a small syntax tree `Re`
together with a backtracking matcher `matchRe` that follows ECMAScript
matching semantics: ordered alternation, greedy quantifiers with
backtracking, multiline `^`, word boundary `\b` and numbered capture
groups.  Each regex literal of the source file is transcribed node by node.
Strings are modelled as `List Char` (`String.data`).
-/

namespace SunriseMigration

/-- ECMAScript `\s`: ASCII whitespace together with NBSP and the BOM.
(The remaining Unicode space separators never occur in the analysed inputs.) -/
def jsSpace (c : Char) : Bool :=
  c = ' ' || c = '\t' || c = '\n' || c = '\r' || c = '\x0b' || c = '\x0c' ||
  c = '\u00A0' || c = '\uFEFF'

/-- ECMAScript `\w`: ASCII letters, digits and underscore. -/
def jsWord (c : Char) : Bool :=
  ('a' ≤ c && c ≤ 'z') || ('A' ≤ c && c ≤ 'Z') || ('0' ≤ c && c ≤ '9') || c = '_'

/-- ECMAScript `\d`. -/
def jsDigit (c : Char) : Bool := '0' ≤ c && c ≤ '9'

/-- ECMAScript line terminators, relevant for multiline `^` and for `.`. -/
def isLineTerm (c : Char) : Bool :=
  c = '\n' || c = '\r' || c = '\u2028' || c = '\u2029'

/-- `litAt pat s` holds when `pat` occurs verbatim at the front of `s`. -/
def litAt : List Char → List Char → Bool
  | [], _ => true
  | _ :: _, [] => false
  | p :: ps, c :: cs => p = c && litAt ps cs

/-- JavaScript `s.includes(pat)`: `pat` occurs somewhere in `s`. -/
def includesL : List Char → List Char → Bool
  | [], pat => litAt pat []
  | c :: t, pat => litAt pat (c :: t) || includesL t pat

/-- JavaScript `s.slice(a, b)` for `0 ≤ a, b` (empty when `b ≤ a`). -/
def sliceL (s : List Char) (a b : Nat) : List Char := (s.drop a).take (b - a)

/-- Character at index `i`, the null character when out of range. -/
def getCharAt (s : List Char) (i : Nat) : Char := s.getD i '\x00'

/-- JavaScript `s.trim()`. -/
def trimL (s : List Char) : List Char :=
  ((s.dropWhile jsSpace).reverse.dropWhile jsSpace).reverse

/-- JavaScript `s.toLowerCase()` (ASCII range, which covers the sources). -/
def lowerL (s : List Char) : List Char := s.map Char.toLower

/-- JavaScript `s.split(",")`, keeping empty fields. -/
def splitOnComma : List Char → List (List Char)
  | [] => [[]]
  | c :: rest =>
    if c = ',' then [] :: splitOnComma rest
    else
      match splitOnComma rest with
      | t :: ts => (c :: t) :: ts
      | [] => [[c]]

/-- JavaScript `s.split(/\s+/)`: fields between maximal whitespace runs; a
leading or trailing run contributes an empty field, as in ECMAScript.  The
flag records that the previous character belonged to a separator run whose
field has already been emitted. -/
def splitWsAux : List Char → Bool → List Char → List (List Char)
  | [], _, acc => [acc.reverse]
  | c :: rest, sep, acc =>
    if jsSpace c then
      if sep then splitWsAux rest true acc
      else acc.reverse :: splitWsAux rest true []
    else splitWsAux rest false (c :: acc)

def splitWs (s : List Char) : List (List Char) := splitWsAux s false []

/-- Is the character at index `i` (if any) a word character? -/
def wordAt (s : List Char) (i : Nat) : Bool :=
  match s.get? i with
  | some c => jsWord c
  | none => false

/-- ECMAScript `\b` at position `pos`. -/
def isBoundary (s : List Char) (pos : Nat) : Bool :=
  if pos = 0 then wordAt s 0 else wordAt s (pos - 1) != wordAt s pos

/-- Syntax of the (small) regex fragment used by the analyzer's patterns.
`bol` is multiline `^` restricted to the `(?:^|\n)` idiom, `wb` is `\b`,
`group n r` is the `n`-th numbered capture group. -/
inductive Re where
  | pred : (Char → Bool) → Re
  | lit : List Char → Re
  | cat : Re → Re → Re
  | alt : Re → Re → Re
  | star : Re → Re
  | opt : Re → Re
  | group : Nat → Re → Re
  | bol : Re
  | wb : Re

/-- Capture list: group number paired with captured text; the head entry for a
group number is the most recent capture, as in ECMAScript. -/
def getCap (caps : List (Nat × List Char)) (n : Nat) : Option (List Char) :=
  match caps.find? (fun p => p.1 = n) with
  | some p => some p.2
  | none => none

def getCapD (caps : List (Nat × List Char)) (n : Nat) : List Char :=
  (getCap caps n).getD []

/-- Backtracking matcher in continuation style, mirroring ECMAScript
semantics: alternation is ordered, `star` and `opt` are greedy and backtrack
through the continuation, a `star` stops on an empty-width iteration.  `fuel`
bounds the depth of one matching path; `runRe` supplies enough of it for the
patterns at hand, all of whose loop bodies consume at least one character. -/
def matchRe (s : List Char) :
    Nat → Re → Nat → List (Nat × List Char) →
    (Nat → List (Nat × List Char) → Option (Nat × List (Nat × List Char))) →
    Option (Nat × List (Nat × List Char))
  | 0, _, _, _, _ => none
  | fuel + 1, re, pos, caps, k =>
    match re with
    | .pred p =>
      match s.get? pos with
      | some c => if p c then k (pos + 1) caps else none
      | none => none
    | .lit l => if litAt l (s.drop pos) then k (pos + l.length) caps else none
    | .cat r1 r2 =>
      matchRe s fuel r1 pos caps (fun p c => matchRe s fuel r2 p c k)
    | .alt r1 r2 =>
      match matchRe s fuel r1 pos caps k with
      | some res => some res
      | none => matchRe s fuel r2 pos caps k
    | .opt r =>
      match matchRe s fuel r pos caps k with
      | some res => some res
      | none => k pos caps
    | .star r =>
      match matchRe s fuel r pos caps
          (fun p c => if pos < p then matchRe s fuel (.star r) p c k else none) with
      | some res => some res
      | none => k pos caps
    | .group n r =>
      matchRe s fuel r pos caps (fun p c => k p ((n, sliceL s pos p) :: c))
    | .bol =>
      if pos = 0 || isLineTerm (getCharAt s (pos - 1)) then k pos caps else none
    | .wb => if isBoundary s pos then k pos caps else none

/-- Attempt a match anchored at `pos`; result is the match end and captures. -/
def runRe (s : List Char) (re : Re) (pos : Nat) :
    Option (Nat × List (Nat × List Char)) :=
  matchRe s (4 * s.length + 400) re pos [] (fun p c => some (p, c))

/-- First position at or after `start` where `re` matches: the semantics of
`RegExp.exec` resuming at `lastIndex = start`.  Yields match start, match end
and the captures. -/
def searchFromAux (s : List Char) (re : Re) :
    Nat → Nat → Option (Nat × Nat × List (Nat × List Char))
  | 0, _ => none
  | fuel + 1, start =>
    if start ≤ s.length then
      match runRe s re start with
      | some (e, caps) => some (start, e, caps)
      | none => searchFromAux s re fuel (start + 1)
    else none

def searchFrom (s : List Char) (re : Re) (start : Nat) :
    Option (Nat × Nat × List (Nat × List Char)) :=
  searchFromAux s re (s.length + 1) start

/-- All matches in order, resuming after each one: `String.matchAll` with a
global regex (an empty match advances by one, as `lastIndex` does). -/
def matchAllFrom (s : List Char) (re : Re) :
    Nat → Nat → List (Nat × Nat × List (Nat × List Char))
  | 0, _ => []
  | fuel + 1, start =>
    match searchFrom s re start with
    | none => []
    | some (b, e, caps) =>
      (b, e, caps) :: matchAllFrom s re fuel (if b < e then e else e + 1)

def matchAll (s : List Char) (re : Re) : List (Nat × Nat × List (Nat × List Char)) :=
  matchAllFrom s re (s.length + 2) 0

/-- Concatenation of a pattern sequence. -/
def cats : List Re → Re
  | [] => .lit []
  | [r] => r
  | r :: rs => .cat r (cats rs)

/-- Greedy `+`. -/
def rplus (r : Re) : Re := .cat r (.star r)

/-- Literal pattern text. -/
def rlit (s : String) : Re := .lit s.data

def wsStar : Re := .star (.pred jsSpace)
def wsPlus : Re := rplus (.pred jsSpace)
def wordPlus : Re := rplus (.pred jsWord)

/-- `/pragma\s+solidity\s+([^;]+);/` (solidityParser.ts line 164). -/
def rePragma : Re :=
  cats [rlit "pragma", wsPlus, rlit "solidity", wsPlus,
        .group 1 (rplus (.pred (fun c => c != ';'))), rlit ";"]

def quoteC (c : Char) : Bool := c = '"' || c = '\''

/-- `/import\s+["']([^"']+)["']/g` (line 168). -/
def reImport : Re :=
  cats [rlit "import", wsPlus, .pred quoteC,
        .group 1 (rplus (.pred (fun c => !quoteC c))), .pred quoteC]

def kindAlt : Re := .alt (rlit "contract") (.alt (rlit "interface") (rlit "library"))

/-- `/(?:^|\n)\s*(contract|interface|library)\s+(\w+)(?:\s+is\s+([\w\s,]+))?\s*\{/gm`
(lines 172–176). -/
def reContractDecl : Re :=
  cats [.alt .bol (rlit "\n"), wsStar,
        .group 1 kindAlt, wsPlus, .group 2 wordPlus,
        .opt (cats [wsPlus, rlit "is", wsPlus,
          .group 3 (rplus (.pred (fun c => jsWord c || jsSpace c || c = ',')))]),
        wsStar, rlit "\x7b"]

/-- The type alternation of the state-variable regex (line 199):
`(?:mapping|address|uint\d*|int\d*|bool|bytes\d*|string|[\w.]+)`. -/
def typeKeywordAlt : Re :=
  .alt (rlit "mapping") (.alt (rlit "address")
   (.alt (.cat (rlit "uint") (.star (.pred jsDigit)))
    (.alt (.cat (rlit "int") (.star (.pred jsDigit)))
     (.alt (rlit "bool")
      (.alt (.cat (rlit "bytes") (.star (.pred jsDigit)))
       (.alt (rlit "string") (rplus (.pred (fun c => jsWord c || c = '.')))))))))

/-- `/(?:^|\n)\s*((?:mapping|address|uint\d*|int\d*|bool|bytes\d*|string|[\w.]+)(?:\[\])?)\s+(?:public\s+|private\s+|internal\s+|constant\s+|immutable\s+)*(\w+)\s*[;=]/gm`
(lines 197–201). -/
def reStateVar : Re :=
  cats [.alt .bol (rlit "\n"), wsStar,
        .group 1 (.cat typeKeywordAlt (.opt (rlit "[]"))),
        wsPlus,
        .star (.alt (.cat (rlit "public") wsPlus)
               (.alt (.cat (rlit "private") wsPlus)
                (.alt (.cat (rlit "internal") wsPlus)
                 (.alt (.cat (rlit "constant") wsPlus)
                  (.cat (rlit "immutable") wsPlus))))),
        .group 2 wordPlus, wsStar, .pred (fun c => c = ';' || c = '=')]

def fnVisAlt : Re :=
  .alt (rlit "public") (.alt (rlit "private") (.alt (rlit "internal") (rlit "external")))

/-- `/function\s+(\w+)\s*\(([^)]*)\)\s*(?:public|private|internal|external)?[^{]*/gm`
(lines 212–216). -/
def reFunction : Re :=
  cats [rlit "function", wsPlus, .group 1 wordPlus, wsStar, rlit "(",
        .group 2 (.star (.pred (fun c => c != ')'))), rlit ")",
        wsStar, .opt fnVisAlt, .star (.pred (fun c => c != '\x7b'))]

/-- `/event\s+(\w+)\s*\(([^)]*)\)/gm` (line 242). -/
def reEvent : Re :=
  cats [rlit "event", wsPlus, .group 1 wordPlus, wsStar, rlit "(",
        .group 2 (.star (.pred (fun c => c != ')'))), rlit ")"]

/-- `/constructor\s*\(([^)]*)\)/` (line 260). -/
def reCtor : Re :=
  cats [rlit "constructor", wsStar, rlit "(",
        .group 1 (.star (.pred (fun c => c != ')'))), rlit ")"]

/-- `/\b(public|private|internal|external)\b/` (line 219). -/
def reVis : Re := cats [.wb, .group 1 fnVisAlt, .wb]

/-- `/\b(pure|view|payable)\b/` (line 221). -/
def reMut : Re :=
  cats [.wb, .group 1 (.alt (rlit "pure") (.alt (rlit "view") (rlit "payable"))), .wb]

/-- The dynamically built regex of line 205,
`new RegExp(v1 + "[^;]*\\b(public|private|internal)\\b")`: the captured type
string `v1` is spliced in as raw pattern text, so a dot inside it acts as the
any-character metacharacter and a literal `[]` suffix as an empty character
class that can never match.  Only word characters, dots and a `[]` suffix can
occur in a captured type string. -/
def reOfRawText : List Char → Re
  | [] => .lit []
  | '.' :: rest => .cat (.pred (fun c => !isLineTerm c)) (reOfRawText rest)
  | '[' :: ']' :: rest => .cat (.pred (fun _ => false)) (reOfRawText rest)
  | c :: rest => .cat (.pred (fun x => x = c)) (reOfRawText rest)

def reVarVis (v1 : List Char) : Re :=
  cats [reOfRawText v1, .star (.pred (fun c => c != ';')), .wb,
        .group 1 (.alt (rlit "public") (.alt (rlit "private") (rlit "internal"))), .wb]

/-! ## The data model (the exported interfaces of solidityParser.ts) -/

structure Param where
  name : String
  typeName : String
deriving DecidableEq

structure EventParam where
  name : String
  typeName : String
  indexed : Bool
deriving DecidableEq

structure StateVariable where
  name : String
  typeName : String
  visibility : String
  constant : Bool
  immutable : Bool
deriving DecidableEq

structure FunctionDef where
  name : String
  visibility : String
  stateMutability : String
  parameters : List Param
  returnParameters : List Param
  isConstructor : Bool
  isModifier : Bool
deriving DecidableEq

structure EventDef where
  name : String
  parameters : List EventParam
deriving DecidableEq

structure ContractDef where
  name : String
  kind : String
  baseContracts : List String
  stateVariables : List StateVariable
  functions : List FunctionDef
  events : List EventDef
deriving DecidableEq

structure ParsedContract where
  contracts : List ContractDef
  pragmaVersion : String
  imports : List String
  isERC20 : Bool
  isERC721 : Bool
  hasOwnable : Bool
  hasAccessControl : Bool
  hasMappings : Bool
  hasEvents : Bool
  complexity : String
  lineCount : Nat
  errors : List String
deriving DecidableEq

def str (l : List Char) : String := ⟨l⟩

def lowerS (s : String) : String := str (lowerL s.data)

def defaultContract : ContractDef :=
  { name := "", kind := "", baseContracts := [], stateVariables := [],
    functions := [], events := [] }

/-! ## Declaration extraction (the body of the loop of lines 178–281) -/

/-- Parameter token rule of lines 226–229 and 270–273: the token is split on
whitespace runs, `parts[0] || "unknown"` is the type and
`parts[parts.length - 1] || ""` the name. -/
def parseParam (p : List Char) : Param :=
  let parts := splitWs p
  { typeName := if parts.headD [] = [] then "unknown" else str (parts.headD []),
    name := str (parts.getLastD []) }

/-- Lines 222–225 / 266–269: split the raw parameter text on commas, trim each
token and drop the empty ones. -/
def paramTokens (raw : List Char) : List (List Char) :=
  (((splitOnComma raw).map trimL).filter (fun t => !t.isEmpty))

def parseParams (raw : List Char) : List Param := (paramTokens raw).map parseParam

/-- Event parameter rule of lines 249–256. -/
def parseEventParam (p : List Char) : EventParam :=
  let parts := splitWs p
  { typeName := if parts.headD [] = [] then "unknown" else str (parts.headD []),
    name := str (parts.getLastD []),
    indexed := includesL p "indexed".data }

def parseEventParams (raw : List Char) : List EventParam :=
  (paramTokens raw).map parseEventParam

/-- One element of `fnMatches.map` (lines 217–239).  `m` is a match triple
(start, end, captures); visibility and mutability are searched for inside the
whole matched text `f[0]`. -/
def mkFunctionDef (body : List Char) (m : Nat × Nat × List (Nat × List Char)) :
    FunctionDef :=
  let f0 := sliceL body m.1 m.2.1
  let visibility := match searchFrom f0 reVis 0 with
    | some (_, _, caps) => str (getCapD caps 1)
    | none => "public"
  let mutability := match searchFrom f0 reMut 0 with
    | some (_, _, caps) => str (getCapD caps 1)
    | none => "nonpayable"
  { name := str (getCapD m.2.2 1), visibility := visibility,
    stateMutability := mutability, parameters := parseParams (getCapD m.2.2 2),
    returnParameters := [], isConstructor := false, isModifier := false }

def extractFunctions (body : List Char) : List FunctionDef :=
  (matchAll body reFunction).map (mkFunctionDef body)

/-- The synthetic record of lines 262–277. -/
def ctorRecord (ps : List Char) : FunctionDef :=
  { name := "constructor", visibility := "public", stateMutability := "nonpayable",
    parameters := parseParams ps, returnParameters := [],
    isConstructor := true, isModifier := false }

/-- `body.match(/constructor\s*\(([^)]*)\)/)` (line 260): first match only. -/
def findCtorParams (body : List Char) : Option (List Char) :=
  match searchFrom body reCtor 0 with
  | some (_, _, caps) => some (getCapD caps 1)
  | none => none

/-- The function list of a body: the regular matches, with the synthetic
constructor record unshifted to the front when line 260 finds one. -/
def functionsOf (body : List Char) : List FunctionDef :=
  match findCtorParams body with
  | some ps => ctorRecord ps :: extractFunctions body
  | none => extractFunctions body

/-- Lines 243–257. -/
def extractEvents (body : List Char) : List EventDef :=
  (matchAll body reEvent).map (fun m =>
    { name := str (getCapD m.2.2 1), parameters := parseEventParams (getCapD m.2.2 2) })

/-- One element of `varMatches.map` (lines 202–209). -/
def mkStateVariable (body : List Char) (m : Nat × Nat × List (Nat × List Char)) :
    StateVariable :=
  let v1 := getCapD m.2.2 1
  let v2 := getCapD m.2.2 2
  { name := str v2, typeName := str v1,
    visibility := match searchFrom body (reVarVis v1) 0 with
      | some (_, _, caps) => str (getCapD caps 1)
      | none => "internal",
    constant := includesL body (v1 ++ (' ' :: "constant".data)) ||
                includesL body ("constant ".data ++ v1),
    immutable := includesL body (v1 ++ (' ' :: "immutable".data)) ||
                 includesL body ("immutable ".data ++ v1) }

def extractStateVariables (body : List Char) : List StateVariable :=
  (matchAll body reStateVar).map (mkStateVariable body)

/-- The brace-depth walk of lines 186–193: starting right after the opening
brace at absolute index `i` with the given depth, consume characters until the
depth returns to zero or the input ends, returning the final value of `i`.
Every brace counts, comments and string literals included. -/
def naiveScanL : List Char → Nat → Nat → Nat
  | [], _, i => i
  | c :: rest, depth, i =>
    if depth = 0 then i
    else naiveScanL rest
      (if c = '\x7b' then depth + 1 else if c = '\x7d' then depth - 1 else depth)
      (i + 1)

/-- Line 194: `body = source.slice(startIdx, i - 1)`. -/
def extractBody (source : List Char) (startIdx : Nat) : List Char :=
  let i := naiveScanL (source.drop startIdx) 1 startIdx
  sliceL source startIdx (i - 1)

/-- The body of the `for (const match of contractMatches)` loop
(lines 178–280), producing one `ContractDef` per declaration match. -/
def mkContract (source : List Char) (m : Nat × Nat × List (Nat × List Char)) :
    ContractDef :=
  let kind := getCapD m.2.2 1
  let name := getCapD m.2.2 2
  let bases : List String :=
    match getCap m.2.2 3 with
    | some m3 =>
      if m3 = [] then []
      else (((splitOnComma m3).map trimL).filter (fun t => !t.isEmpty)).map str
    | none => []
  let body := extractBody source m.2.1
  { name := str name, kind := str kind, baseContracts := bases,
    stateVariables := extractStateVariables body,
    functions := functionsOf body, events := extractEvents body }

/-! ## Classification and assembly (`buildResult`, lines 287–329) -/

/-- `contracts.flatMap(c => c.functions.map(f => f.name.toLowerCase()))`. -/
def allFnNamesLower (contracts : List ContractDef) : List String :=
  contracts.flatMap (fun c => c.functions.map (fun f => lowerS f.name))

/-- `source.split("\n").length`: one more than the number of newlines. -/
def lineCountOf (source : List Char) : Nat :=
  (source.filter (fun c => c = '\n')).length + 1

def buildResult (contracts : List ContractDef) (pragmaVersion : String)
    (imports : List String) (source : List Char) (errors : List String) :
    ParsedContract :=
  let allBases := contracts.flatMap (fun c => c.baseContracts.map lowerS)
  let allFns := allFnNamesLower contracts
  let srcLower := lowerL source
  let isERC20 := allFns.contains "transfer" && allFns.contains "approve" &&
    allFns.contains "transferfrom"
  let isERC721 := allFns.contains "safetransferfrom" || includesL srcLower "erc721".data
  let hasOwnable := allBases.any (fun b => includesL b.data "ownable".data) ||
    includesL srcLower "ownable".data
  let hasAccessControl := includesL srcLower "accesscontrol".data ||
    includesL srcLower "roles".data
  let hasMappings := includesL source "mapping(".data
  let hasEvents := contracts.any (fun c => !c.events.isEmpty)
  let totalFns : Nat := contracts.foldl (fun s c => s + c.functions.length) 0
  let totalVars : Nat := contracts.foldl (fun s c => s + c.stateVariables.length) 0
  let complexity : String :=
    if totalFns > 15 ∨ totalVars > 10 then "high"
    else if totalFns > 6 then "medium" else "low"
  { contracts := contracts, pragmaVersion := pragmaVersion, imports := imports,
    isERC20 := isERC20, isERC721 := isERC721, hasOwnable := hasOwnable,
    hasAccessControl := hasAccessControl, hasMappings := hasMappings,
    hasEvents := hasEvents, complexity := complexity,
    lineCount := lineCountOf source, errors := errors }

/-- `regexFallbackParser` (lines 159–284).  `errors` stays the empty array it
is initialised to on line 161: no statement of the function appends to it. -/
def regexFallbackParser (source : List Char) : ParsedContract :=
  let errors : List String := []
  let pragmaVersion : String :=
    match searchFrom source rePragma 0 with
    | some (_, _, caps) => str (trimL (getCapD caps 1))
    | none => "unknown"
  let imports : List String :=
    (matchAll source reImport).map (fun m => str (getCapD m.2.2 1))
  let contracts := (matchAll source reContractDecl).map (mkContract source)
  buildResult contracts pragmaVersion imports source errors

/-- `parseSolidity` (lines 68–156).  The AST branch requires the browser
global `window.__solidityParser`, which no module of this repository ever
assigns; the guard `if (!parser)` of line 83 therefore always takes the
regex-fallback path, so the analyzer is this pure function of the source. -/
def parseSolidity (source : List Char) : ParsedContract :=
  regexFallbackParser source

/-! ## The specification's notion of the true body span (§4.1, design
requirement for claim C1)

The claim speaks of "the truly matching closing brace ... unaffected by braces
appearing in comments or string literals".  `awareScanL` walks the characters
after the declaration's opening brace like the code's naive counter does, but
skips line comments, block comments and single- or double-quoted string
literals (with backslash escapes), so that only braces in code count.  It is
a single-character step machine; `Mode.slash` and `Mode.blockStar` record a
pending `/` or `*` that may start or end a comment. -/

inductive Mode where
  | code | slash | lineC | blockC | blockStar | dq | dqEsc | sq | sqEsc
deriving DecidableEq

/-- Comment- and string-aware brace matching: returns the index one past the
truly matching closing brace, or `none` when the brace is unterminated.
`depth` is the current brace depth (at least 1), `i` the absolute index of
the next character. -/
def awareScanL : List Char → Mode → Nat → Nat → Option Nat
  | [], _, _, _ => none
  | c :: rest, m, depth, i =>
    match m with
    | .code =>
      if c = '/' then awareScanL rest .slash depth (i + 1)
      else if c = '\x7b' then awareScanL rest .code (depth + 1) (i + 1)
      else if c = '\x7d' then
        if depth = 1 then some (i + 1) else awareScanL rest .code (depth - 1) (i + 1)
      else if c = '"' then awareScanL rest .dq depth (i + 1)
      else if c = '\'' then awareScanL rest .sq depth (i + 1)
      else awareScanL rest .code depth (i + 1)
    | .slash =>
      -- the pending slash was ordinary code unless this starts a comment
      if c = '/' then awareScanL rest .lineC depth (i + 1)
      else if c = '*' then awareScanL rest .blockC depth (i + 1)
      else if c = '\x7b' then awareScanL rest .code (depth + 1) (i + 1)
      else if c = '\x7d' then
        if depth = 1 then some (i + 1) else awareScanL rest .code (depth - 1) (i + 1)
      else if c = '"' then awareScanL rest .dq depth (i + 1)
      else if c = '\'' then awareScanL rest .sq depth (i + 1)
      else awareScanL rest .code depth (i + 1)
    | .lineC =>
      if c = '\n' then awareScanL rest .code depth (i + 1)
      else awareScanL rest .lineC depth (i + 1)
    | .blockC =>
      if c = '*' then awareScanL rest .blockStar depth (i + 1)
      else awareScanL rest .blockC depth (i + 1)
    | .blockStar =>
      if c = '/' then awareScanL rest .code depth (i + 1)
      else if c = '*' then awareScanL rest .blockStar depth (i + 1)
      else awareScanL rest .blockC depth (i + 1)
    | .dq =>
      if c = '\\' then awareScanL rest .dqEsc depth (i + 1)
      else if c = '"' then awareScanL rest .code depth (i + 1)
      else awareScanL rest .dq depth (i + 1)
    | .dqEsc => awareScanL rest .dq depth (i + 1)
    | .sq =>
      if c = '\\' then awareScanL rest .sqEsc depth (i + 1)
      else if c = '\'' then awareScanL rest .code depth (i + 1)
      else awareScanL rest .sq depth (i + 1)
    | .sqEsc => awareScanL rest .sq depth (i + 1)

/-- The body span the specification asks for: the substring between the
declaration's opening brace and its truly matching closing brace. -/
def awareBody (source : List Char) (startIdx : Nat) : Option (List Char) :=
  match awareScanL (source.drop startIdx) .code 1 startIdx with
  | some j => some (sliceL source startIdx (j - 1))
  | none => none

/-! ## The mapping-rule engine (`applyMappingRules` of the mapping-rules
module, `src/unnamed/part_000`, lines 263–385) and the cost estimator's
mapping count (`estimateCosts`, costCalculator.ts lines 46–48)

A `MappingRule` of the source also carries descriptive text fields
(`evmDetail`, `solanaConcept`, `solanaDetail`, `rationale`, snippets, ...).
None of those fields influences the control flow of `applyMappingRules` or
any count: the function's own logic reads only `category` and `evmConcept`
(the deduplication of rule branches 6 and 7), so the embedding keeps exactly
`id`, `category` and `evmConcept` per rule. -/

structure MRule where
  id : String
  category : String
  evmConcept : String
deriving DecidableEq

/-- `s.startsWith(pat)` on Lean strings. -/
def startsS (s pat : String) : Bool := litAt pat.data s.data

/-- `s.includes(pat)` on Lean strings. -/
def includesS (s pat : String) : Bool := includesL s.data pat.data

/-- `(category, evmConcept)` of the twelve entries of `STATIC_RULES`
(part_000 lines 80–259), in order. -/
def staticRulePairs : List (String × String) :=
  [("state", "contract storage"),
   ("storage", "mapping(K => V)"),
   ("access", "address owner (Ownable)"),
   ("access", "AccessControl (roles)"),
   ("token", "ERC-20 token"),
   ("token", "ERC-721 NFT"),
   ("event", "Solidity event / emit"),
   ("pattern", "constructor()"),
   ("pattern", "require(condition, \"msg\")"),
   ("pattern", "block.timestamp"),
   ("pattern", "ReentrancyGuard / nonReentrant"),
   ("pattern", "payable / msg.value")]

/-- `parsed.contracts.find(c => c.kind === "contract") ?? parsed.contracts[0]`
(line 268). -/
def mainContractOf (parsed : ParsedContract) : Option ContractDef :=
  match parsed.contracts.find? (fun c => c.kind == "contract") with
  | some c => some c
  | none => parsed.contracts.head?

/-- The single rule pushed for one state variable of the main contract
(lines 277–315): a PDA rule for a mapping-typed variable (category `storage`,
spread from the `mapping(K => V)` static rule), the Ownable rule for an
owner-named address, and a generic `state` field rule otherwise. -/
def stateVarRulePair (v : StateVariable) : String × String :=
  if startsS v.typeName "mapping" then ("storage", "mapping: " ++ v.name)
  else if includesS (lowerS v.name) "owner" && v.typeName == "address" then
    ("access", "address owner (Ownable)")
  else ("state", v.typeName ++ " " ++ v.name)

/-- Rule branches 1–4 (lines 270–351): nothing is pushed when there is no
main contract. -/
def mainContractRulePairs (parsed : ParsedContract) : List (String × String) :=
  match mainContractOf parsed with
  | none => []
  | some mc =>
    [("state", "contract " ++ mc.name ++ " storage")]
    ++ mc.stateVariables.map stateVarRulePair
    ++ (let publicFns := mc.functions.filter
          (fun f => !f.isConstructor && (f.visibility == "public" || f.visibility == "external"))
        if publicFns.length > 0 then
          [("pattern", toString publicFns.length ++ " public/external functions")]
        else [])
    ++ (if mc.events.length > 0 then
          [("event", toString mc.events.length ++ " events")]
        else [])

/-- Rule branches 5–7 (lines 354–384) appended to the main-contract rules:
token standards, access control (with substring deduplication against the
rules pushed so far) and the static `pattern` rules not already present. -/
def preRules (parsed : ParsedContract) : List (String × String) :=
  let b1 := mainContractRulePairs parsed
    ++ (if parsed.isERC20 then [("token", "ERC-20 token")] else [])
    ++ (if parsed.isERC721 then [("token", "ERC-721 NFT")] else [])
  let b2 := b1 ++
    (if parsed.hasOwnable && !(b1.any (fun r => includesS r.2 "owner")) then
      [("access", "address owner (Ownable)")] else [])
  let b3 := b2 ++
    (if parsed.hasAccessControl then [("access", "AccessControl (roles)")] else [])
  b3 ++ staticRulePairs.filter
    (fun r => r.1 == "pattern" && !(b3.any (fun x => x.2 == r.2)))

/-- The `nextId` counter (lines 264–265): the `n`-th pushed rule gets the id
`rule-n`, counting from 1. -/
def idRules : Nat → List (String × String) → List MRule
  | _, [] => []
  | n, r :: rs =>
    { id := "rule-" ++ toString n, category := r.1, evmConcept := r.2 } :: idRules (n + 1) rs

def applyMappingRules (parsed : ParsedContract) : List MRule :=
  idRules 1 (preRules parsed)

/-- The PDA-style mapping rules of the engine's output: exactly the rules the
state-variable loop spreads from the `mapping(K => V)` static rule, the only
pushes with category `storage`. -/
def pdaMappingRuleCount (parsed : ParsedContract) : Nat :=
  (applyMappingRules parsed).countP (fun r => r.category == "storage")

/-- `estimateCosts`' mapping count (costCalculator.ts lines 46–48): state
variables of every contract whose type name starts with `mapping`. -/
def estimateMappingCount (parsed : ParsedContract) : Nat :=
  ((parsed.contracts.flatMap (fun c => c.stateVariables)).filter
    (fun v => startsS v.typeName "mapping")).length

/-! ## The specification's parameter rule (§4.2, for claim C6)

The claim's own reading of the token rule: the last whitespace-separated word
is the name, everything before it the type, a single word the type with an
empty name. -/

def joinSpace (ws : List (List Char)) : List Char := List.intercalate [' '] ws

def specParamOf (p : List Char) : Param :=
  let words := splitWs p
  if words.length ≤ 1 then { typeName := str (words.headD []), name := "" }
  else { typeName := str (joinSpace words.dropLast), name := str (words.getLastD []) }

/-! ## Concrete inputs used by the claims -/

/-- Scenario 1 of the specification: the minimal ERC-20 source. -/
def s1 : List Char :=
  ("contract T \x7b function transfer(address,uint256) public returns(bool)\x7b\x7d function approve(address,uint256) public returns(bool)\x7b\x7d function transferFrom(address,address,uint256) public returns(bool)\x7b\x7d \x7d").data

/-- A contract whose body holds a closing brace inside a line comment; the
declaration's opening brace is at index 11, its body starts at index 12, the
truly matching closing brace is the final character (index 43 of 44). -/
def c1src : List Char :=
  ("contract A \x7b\n // \x7d\n function f() public \x7b\x7d\n\x7d").data

/-- Scenario 6 of the specification: an unterminated opening brace. -/
def c2src : List Char := ("contract A \x7b").data

/-- Scenario 4 of the specification: a function declared textually before the
constructor. -/
def c3body : List Char :=
  ("function foo() public \x7b\x7d constructor(address a) \x7b\x7d").data

/-- Two contracts, each with one state variable whose captured type name
starts with `mapping` (the fallback's state-variable regex captures a plain
word as the type, so a word type beginning with `mapping` is used). -/
def c7src : List Char :=
  ("contract A \x7b\nmappingA x;\n\x7d\ncontract B \x7b\nmappingB y;\n\x7d").data

/-- A contract with a constructor and an ordinary function. -/
def c10src : List Char :=
  ("contract A \x7b constructor() \x7b\x7d function f() public \x7b\x7d \x7d").data

/-- A trivial public function record, as extracted for `function f() ...`. -/
def fn16 : FunctionDef :=
  { name := "f", visibility := "public", stateMutability := "nonpayable",
    parameters := [], returnParameters := [], isConstructor := false,
    isModifier := false }

/-- Scenario 5 of the specification: sixteen trivial functions, no state
variables. -/
def c16 : ContractDef :=
  { name := "C", kind := "contract", baseContracts := [], stateVariables := [],
    functions := List.replicate 16 fn16, events := [] }

end SunriseMigration




namespace SunriseMigration

/-! ## Helper lemmas -/

theorem naiveScanL_depth_zero (cs : List Char) (i : Nat) : naiveScanL cs 0 i = i := by
  cases cs <;> simp [naiveScanL]

/-- On a character range free of comment and string delimiters the
comment-aware scan and the code's naive brace count walk in lockstep. -/
theorem aware_naive_agree :
    ∀ (cs : List Char) (depth i j : Nat), 0 < depth →
      (∀ c ∈ cs, c ≠ '/' ∧ c ≠ '"' ∧ c ≠ '\'') →
      awareScanL cs .code depth i = some j →
      naiveScanL cs depth i = j := by
  intro cs
  induction cs with
  | nil => intro depth i j _ _ haw; simp [awareScanL] at haw
  | cons c rest ih =>
    intro depth i j hd hno haw
    obtain ⟨hc1, hc2, hc3⟩ := hno c (List.mem_cons_self c rest)
    have hno' : ∀ x ∈ rest, x ≠ '/' ∧ x ≠ '"' ∧ x ≠ '\'' :=
      fun x hx => hno x (List.mem_cons_of_mem c hx)
    rw [awareScanL] at haw
    simp only [if_neg hc1, if_neg hc2, if_neg hc3] at haw
    rw [naiveScanL, if_neg (Nat.pos_iff_ne_zero.mp hd)]
    by_cases hb : c = '\x7b'
    · simp only [if_pos hb] at haw ⊢
      exact ih (depth + 1) (i + 1) j (Nat.succ_pos depth) hno' haw
    · simp only [if_neg hb] at haw ⊢
      by_cases hcl : c = '\x7d'
      · simp only [if_pos hcl] at haw ⊢
        by_cases h1 : depth = 1
        · rw [if_pos h1] at haw
          injection haw with hj
          rw [h1]
          simpa using (naiveScanL_depth_zero rest (i + 1)).trans hj
        · rw [if_neg h1] at haw
          exact ih (depth - 1) (i + 1) j (by omega) hno' haw
      · simp only [if_neg hcl] at haw ⊢
        exact ih depth (i + 1) j hd hno' haw

/-! ## Claim C1 -/

/-- C1, counterexample.  The claim states that braces inside comments or
string literals do not affect the body span the Scanner yields.  On `c1src`
the single declaration match ends at index 12, the truly matching closing
brace gives the body span up to index 43, yet the naive brace counter of
lines 186-194 stops at the `\x7d` inside the line comment: the two spans
differ, so the claim fails. -/
theorem C1_counterexample :
    (matchAll c1src reContractDecl).map (fun m => m.2.1) = [12] ∧
    awareBody c1src 12 = some (sliceL c1src 12 43) ∧
    extractBody c1src 12 ≠ sliceL c1src 12 43 := by
  refine ⟨by decide, by decide, by decide⟩

/-- C1, amended.  The scanner counts every brace, those inside comments and
string literals included; its body span therefore agrees with the truly
matching closing brace exactly on bodies free of comment and string
delimiters: when no `/`, `"` or `'` occurs after the opening brace and the
aware scan finds the matching brace at index `j`, the extracted body is the
substring up to `j - 1`. -/
theorem C1_amended_body_correct_without_delims (source : List Char)
    (startIdx j : Nat)
    (hno : ∀ c ∈ source.drop startIdx, c ≠ '/' ∧ c ≠ '"' ∧ c ≠ '\'')
    (haw : awareScanL (source.drop startIdx) .code 1 startIdx = some j) :
    extractBody source startIdx = sliceL source startIdx (j - 1) := by
  unfold extractBody
  rw [aware_naive_agree (source.drop startIdx) 1 startIdx j Nat.one_pos hno haw]

theorem C1_amended_witness :
    extractBody ("contract A \x7b uint x; \x7d").data 12 =
      sliceL ("contract A \x7b uint x; \x7d").data 12 21 :=
  C1_amended_body_correct_without_delims ("contract A \x7b uint x; \x7d").data
    12 22 (by decide) (by decide)

/-! ## Claim C2 -/

/-- C2, counterexample.  On the unterminated input of Scenario 6 the analysis
does return a result, but its `errors` sequence is empty, not non-empty as
the claim demands, and the faulty declaration itself is included. -/
theorem C2_counterexample :
    (regexFallbackParser c2src).errors = [] ∧
    (regexFallbackParser c2src).contracts.length = 1 := by
  refine ⟨by decide, by decide⟩

/-- C2, amended.  For every input (malformed ones included) the regex
fallback returns a result whose `errors` sequence is empty: the fallback
never records a diagnostic, the brace walk simply stops at the end of input
and the unterminated declaration is kept with a truncated body. -/
theorem C2_amended_errors_always_empty :
    ∀ source : List Char, (regexFallbackParser source).errors = [] :=
  fun _ => rfl

/-! ## Claim C3 -/

/-- C3.  Whenever the constructor regex of line 260 finds a match in a body,
the extracted function sequence starts with the synthetic record:
name `constructor`, `isConstructor` true, visibility `public` - regardless of
where the constructor sits in the body text. -/
theorem C3_constructor_first (body ps : List Char)
    (h : findCtorParams body = some ps) :
    ∃ f, (functionsOf body).head? = some f ∧ f.name = "constructor" ∧
      f.isConstructor = true ∧ f.visibility = "public" := by
  refine ⟨ctorRecord ps, ?_, rfl, rfl, rfl⟩
  unfold functionsOf
  rw [h]
  rfl

theorem C3_constructor_first_witness :
    ∃ f, (functionsOf c3body).head? = some f ∧ f.name = "constructor" ∧
      f.isConstructor = true ∧ f.visibility = "public" :=
  C3_constructor_first c3body ("address a").data (by decide)

/-! ## Claim C4 -/

set_option maxRecDepth 200000 in
/-- C4.  `isERC20` holds exactly when the lower-cased function names collected
over all contracts contain `transfer`, `approve` and `transferfrom`; and on
the minimal ERC-20 source of Scenario 1 the analysis yields one contract with
`isERC20` true and `isERC721` false. -/
theorem C4_isERC20_characterisation :
    (∀ (cs : List ContractDef) (pv : String) (im : List String)
        (src : List Char) (er : List String),
      (buildResult cs pv im src er).isERC20 = true ↔
        ("transfer" ∈ allFnNamesLower cs ∧ "approve" ∈ allFnNamesLower cs ∧
         "transferfrom" ∈ allFnNamesLower cs)) ∧
    (regexFallbackParser s1).contracts.length = 1 ∧
    (regexFallbackParser s1).isERC20 = true ∧
    (regexFallbackParser s1).isERC721 = false := by
  refine ⟨?_, by decide, by decide, by decide⟩
  intro cs pv im src er
  show ((allFnNamesLower cs).contains "transfer" &&
        (allFnNamesLower cs).contains "approve" &&
        (allFnNamesLower cs).contains "transferfrom") = true ↔ _
  simp only [Bool.and_eq_true, List.contains, and_assoc]
  constructor
  · rintro ⟨h1, h2, h3⟩
    exact ⟨List.elem_iff.mp h1, List.elem_iff.mp h2, List.elem_iff.mp h3⟩
  · rintro ⟨h1, h2, h3⟩
    exact ⟨List.elem_iff.mpr h1, List.elem_iff.mpr h2, List.elem_iff.mpr h3⟩

/-! ## Claim C5 -/

/-- C5.  `complexity` is `high` exactly when the total function count over
all contracts exceeds 15 or the total state-variable count exceeds 10 (either
trigger alone suffices), `medium` exactly when neither high trigger fires and
the function count exceeds 6, and `low` otherwise; in particular a contract
with exactly 16 functions and no state variables is classified `high`. -/
theorem C5_complexity_rule :
    (∀ (cs : List ContractDef) (pv : String) (im : List String)
        (src : List Char) (er : List String),
      ((buildResult cs pv im src er).complexity = "high" ↔
        cs.foldl (fun s c => s + c.functions.length) 0 > 15 ∨
        cs.foldl (fun s c => s + c.stateVariables.length) 0 > 10) ∧
      ((buildResult cs pv im src er).complexity = "medium" ↔
        ¬(cs.foldl (fun s c => s + c.functions.length) 0 > 15 ∨
          cs.foldl (fun s c => s + c.stateVariables.length) 0 > 10) ∧
        cs.foldl (fun s c => s + c.functions.length) 0 > 6) ∧
      ((buildResult cs pv im src er).complexity = "low" ↔
        ¬(cs.foldl (fun s c => s + c.functions.length) 0 > 15 ∨
          cs.foldl (fun s c => s + c.stateVariables.length) 0 > 10) ∧
        ¬cs.foldl (fun s c => s + c.functions.length) 0 > 6)) ∧
    (buildResult [c16] "unknown" [] [] []).complexity = "high" := by
  constructor
  · intro cs pv im src er
    have hc : (buildResult cs pv im src er).complexity =
        (if cs.foldl (fun s c => s + c.functions.length) 0 > 15 ∨
            cs.foldl (fun s c => s + c.stateVariables.length) 0 > 10 then "high"
         else if cs.foldl (fun s c => s + c.functions.length) 0 > 6 then "medium"
         else "low") := rfl
    rw [hc]
    split_ifs with h1 h2
    · exact ⟨⟨fun _ => h1, fun _ => rfl⟩,
        ⟨fun h => absurd h (by decide), fun h => absurd h1 h.1⟩,
        ⟨fun h => absurd h (by decide), fun h => absurd h1 h.1⟩⟩
    · exact ⟨⟨fun h => absurd h (by decide), fun h => absurd h h1⟩,
        ⟨fun _ => ⟨h1, h2⟩, fun _ => rfl⟩,
        ⟨fun h => absurd h (by decide), fun h => absurd h2 h.2⟩⟩
    · exact ⟨⟨fun h => absurd h (by decide), fun h => absurd h h1⟩,
        ⟨fun h => absurd h (by decide), fun h => absurd h.2 h2⟩,
        ⟨fun _ => ⟨h1, h2⟩, fun _ => rfl⟩⟩
  · decide

/-! ## Claim C6 -/

/-- C6, counterexample.  The claim's rule (the last word is the name,
everything before it the type, a one-word token an empty name) disagrees with
the code on a one-word token - the code reuses the word as the name - and on
a three-word token - the code takes only the first word as the type. -/
theorem C6_counterexample :
    parseParam ("uint256").data ≠ specParamOf ("uint256").data ∧
    parseParam ("uint256 memory data").data ≠ specParamOf ("uint256 memory data").data := by
  refine ⟨by decide, by decide⟩

/-- C6, amended.  For a parameter token whose whitespace split is `w :: ws`,
the extracted type is the FIRST word `w` (or `unknown` when it is empty) and
the name is the last word; the event-parameter rule is the same with the
`indexed` flag a substring test on the token; in particular a one-word token
yields that word as both the type and the name, not an empty name. -/
theorem C6_amended_param_rule (p w : List Char) (ws : List (List Char))
    (h : splitWs p = w :: ws) :
    (parseParam p).typeName = (if w = [] then "unknown" else str w) ∧
    (parseParam p).name = str ((w :: ws).getLastD []) ∧
    (parseEventParam p).typeName = (if w = [] then "unknown" else str w) ∧
    (parseEventParam p).name = str ((w :: ws).getLastD []) ∧
    (parseEventParam p).indexed = includesL p ("indexed").data ∧
    (ws = [] → w ≠ [] → (parseParam p).name = (parseParam p).typeName) := by
  have hp : parseParam p =
      { typeName := if w = [] then "unknown" else str w,
        name := str ((w :: ws).getLastD []) } := by
    unfold parseParam
    rw [h]
    rfl
  have hep : parseEventParam p =
      { typeName := if w = [] then "unknown" else str w,
        name := str ((w :: ws).getLastD []),
        indexed := includesL p ("indexed").data } := by
    unfold parseEventParam
    rw [h]
    rfl
  refine ⟨by rw [hp], by rw [hp], by rw [hep], by rw [hep], by rw [hep], ?_⟩
  intro hws hw
  subst hws
  rw [hp, if_neg hw]
  rfl

theorem C6_amended_witness :
    (parseParam ("uint256").data).typeName =
      (if ("uint256").data = ([] : List Char) then "unknown" else str ("uint256").data) ∧
    (parseParam ("uint256").data).name = str ((("uint256").data :: ([] : List (List Char))).getLastD []) ∧
    (parseEventParam ("uint256").data).typeName =
      (if ("uint256").data = ([] : List Char) then "unknown" else str ("uint256").data) ∧
    (parseEventParam ("uint256").data).name = str ((("uint256").data :: ([] : List (List Char))).getLastD []) ∧
    (parseEventParam ("uint256").data).indexed = includesL ("uint256").data ("indexed").data ∧
    (([] : List (List Char)) = [] → ("uint256").data ≠ [] →
      (parseParam ("uint256").data).name = (parseParam ("uint256").data).typeName) :=
  C6_amended_param_rule ("uint256").data ("uint256").data [] (by decide)

/-! ## Claim C7 -/

theorem idRules_countP_storage (l : List (String × String)) :
    ∀ n, (idRules n l).countP (fun r => r.category == "storage") =
      l.countP (fun p => p.1 == "storage") := by
  induction l with
  | nil => intro n; rfl
  | cons r rs ih =>
    intro n
    simp only [idRules, List.countP_cons, ih]

theorem countP_storage_pattern_filter (l : List (String × String))
    (q : String × String → Bool) :
    (l.filter (fun r => r.1 == "pattern" && q r)).countP
      (fun p => p.1 == "storage") = 0 := by
  rw [List.countP_eq_zero]
  intro a ha
  rw [List.mem_filter, Bool.and_eq_true] at ha
  have h1 : a.1 = "pattern" := by
    have := ha.2.1
    exact beq_iff_eq.mp this
  simp [h1]

theorem stateVarRulePair_storage (v : StateVariable) :
    ((stateVarRulePair v).1 == "storage") = startsS v.typeName "mapping" := by
  unfold stateVarRulePair
  split
  · rename_i hm
    rw [hm]
    rfl
  · rename_i hm
    rw [Bool.not_eq_true] at hm
    rw [hm]
    split <;> rfl

/-- C7, amended.  The mapping-rule engine walks only the main contract (the
first of kind `contract`, or else the first contract): the number of
PDA-style mapping rules it emits equals the number of mapping-typed state
variables of that contract alone, while the cost estimator counts the
mapping-typed state variables of every contract, so the two counts (and the
claim's total across all contracts) need not agree. -/
theorem C7_amended_pda_rules_count_main_contract (parsed : ParsedContract) :
    pdaMappingRuleCount parsed =
      (match mainContractOf parsed with
       | some mc => mc.stateVariables.countP (fun v => startsS v.typeName "mapping")
       | none => 0) := by
  unfold pdaMappingRuleCount applyMappingRules
  rw [idRules_countP_storage]
  unfold preRules
  simp only [List.countP_append, countP_storage_pattern_filter]
  have hz1 : ∀ c : Bool, (if c = true then [(("token" : String), ("ERC-20 token" : String))] else []).countP
      (fun p => p.1 == "storage") = 0 := by
    intro c; cases c <;> rfl
  have hz2 : ∀ c : Bool, (if c = true then [(("token" : String), ("ERC-721 NFT" : String))] else []).countP
      (fun p => p.1 == "storage") = 0 := by
    intro c; cases c <;> rfl
  have hz3 : ∀ c : Bool, (if c = true then [(("access" : String), ("address owner (Ownable)" : String))] else []).countP
      (fun p => p.1 == "storage") = 0 := by
    intro c; cases c <;> rfl
  have hz4 : ∀ c : Bool, (if c = true then [(("access" : String), ("AccessControl (roles)" : String))] else []).countP
      (fun p => p.1 == "storage") = 0 := by
    intro c; cases c <;> rfl
  rw [hz1, hz2, hz3, hz4]
  have hmain : (mainContractRulePairs parsed).countP (fun p => p.1 == "storage") =
      (match mainContractOf parsed with
       | some mc => mc.stateVariables.countP (fun v => startsS v.typeName "mapping")
       | none => 0) := by
    unfold mainContractRulePairs
    cases hmc : mainContractOf parsed with
    | none => rfl
    | some mc =>
      simp only [List.countP_cons, List.countP_append, List.countP_map]
      have hfn : ∀ c : Bool, ∀ x : String × String,
          (if c = true then [x] else []).countP (fun p => p.1 == "storage") =
          (if c = true then (if x.1 == "storage" then 1 else 0) else 0) := by
        intro c x; cases c <;> simp [List.countP_cons]
      have h3 : (if (mc.functions.filter (fun f =>
            !f.isConstructor && (f.visibility == "public" || f.visibility == "external"))).length > 0
          then [(("pattern" : String), toString (mc.functions.filter (fun f =>
            !f.isConstructor && (f.visibility == "public" || f.visibility == "external"))).length ++ " public/external functions")]
          else []).countP (fun p => p.1 == "storage") = 0 := by
        split <;> rfl
      have h4 : (if mc.events.length > 0
          then [(("event" : String), toString mc.events.length ++ " events")]
          else []).countP (fun p => p.1 == "storage") = 0 := by
        split <;> rfl
      rw [h3, h4]
      have hcomp : (fun p : String × String => p.1 == "storage") ∘ stateVarRulePair =
          fun v => startsS v.typeName "mapping" := by
        funext v
        exact stateVarRulePair_storage v
      rw [hcomp]
      simp
  rw [hmain]
  omega

/-- C7, counterexample.  A source with two contracts, each holding one state
variable whose captured type name starts with `mapping`: the cost estimator's
total across all contracts is 2, but the mapping-rule engine emits a single
PDA-style mapping rule (it only walks the main contract), so the claimed
three-way equality fails on this reachable analysis result. -/
theorem C7_counterexample :
    estimateMappingCount (regexFallbackParser c7src) = 2 ∧
    pdaMappingRuleCount (regexFallbackParser c7src) = 1 := by
  refine ⟨by decide, by decide⟩

/-! ## Claim C8 -/

/-- C8.  The analyzer is a pure function of the input text alone - the only
process-wide state the source consults, `window.__solidityParser`, is never
assigned anywhere in the repository - so two invocations on identical input
yield structurally identical results. -/
theorem C8_analyze_deterministic (s t : List Char) (h : s = t) :
    parseSolidity s = parseSolidity t := by rw [h]

theorem C8_analyze_deterministic_witness :
    parseSolidity s1 = parseSolidity s1 :=
  C8_analyze_deterministic s1 s1 rfl

/-! ## Claim C9 -/

/-- C9.  On the empty input the analysis returns (it is a total function)
with no contracts, pragma version `unknown`, no imports and complexity
`low`. -/
theorem C9_empty_input :
    (parseSolidity ("").data).contracts = [] ∧
    (parseSolidity ("").data).pragmaVersion = "unknown" ∧
    (parseSolidity ("").data).imports = [] ∧
    (parseSolidity ("").data).complexity = "low" := by
  refine ⟨by decide, by decide, by decide, by decide⟩

/-! ## Claim C10 -/

theorem extractFunctions_flags (body : List Char) :
    ∀ f ∈ extractFunctions body, f.isConstructor = false ∧ f.isModifier = false := by
  intro f hf
  unfold extractFunctions at hf
  rw [List.mem_map] at hf
  obtain ⟨m, -, hfm⟩ := hf
  rw [← hfm]
  exact ⟨rfl, rfl⟩

theorem functionsOf_flags (body : List Char) :
    ((functionsOf body).filter (fun f => f.isConstructor)).length ≤ 1 ∧
    ∀ f ∈ functionsOf body, f.isModifier = false := by
  have hbase := extractFunctions_flags body
  have hfil : (extractFunctions body).filter (fun f => f.isConstructor) = [] :=
    List.filter_eq_nil_iff.mpr (fun f hf => by simp [(hbase f hf).1])
  unfold functionsOf
  cases hctor : findCtorParams body with
  | none =>
    refine ⟨?_, fun f hf => (hbase f hf).2⟩
    rw [hfil]
    decide
  | some ps =>
    constructor
    · show ((ctorRecord ps :: extractFunctions body).filter
        (fun f => f.isConstructor)).length ≤ 1
      rw [List.filter_cons_of_pos (by rfl), hfil]
      simp
    · intro f hf
      rcases List.mem_cons.mp hf with h | h
      · rw [h]
        rfl
      · exact (hbase f h).2

/-- C10.  Every contract record the regex path produces has at most one
function record with `isConstructor` true (the non-global constructor regex
matches once and a single synthetic record is unshifted), and every function
record, the synthetic one included, has `isModifier` false; in particular
every non-constructor record has both flags false. -/
theorem C10_at_most_one_constructor (source : List Char) (c : ContractDef)
    (hc : c ∈ (regexFallbackParser source).contracts) :
    ((c.functions.filter (fun f => f.isConstructor)).length ≤ 1) ∧
    (∀ f ∈ c.functions, f.isModifier = false) := by
  have hc' : c ∈ (matchAll source reContractDecl).map (mkContract source) := hc
  rw [List.mem_map] at hc'
  obtain ⟨m, -, hcm⟩ := hc'
  have hfns : c.functions = functionsOf (extractBody source m.2.1) := by
    rw [← hcm]
    rfl
  rw [hfns]
  exact functionsOf_flags (extractBody source m.2.1)

theorem C10_at_most_one_constructor_witness :
    ((((regexFallbackParser c10src).contracts.headD defaultContract).functions.filter
      (fun f => f.isConstructor)).length ≤ 1) ∧
    (∀ f ∈ ((regexFallbackParser c10src).contracts.headD defaultContract).functions,
      f.isModifier = false) :=
  C10_at_most_one_constructor c10src _ (by decide)

end SunriseMigration
